import Mathlib

/-! bpm: authenticated ledger access (main.go)

A shallow embedding of the request handlers of `main.go` together with the
collaborators they talk to: the relational store behind `db`, the JWT
verifier, `strconv.Atoi`, and the two regular expressions used on the
request path and the `Authorization` header.

Conventions.
* Go `int` is 64 bit; values are `Int`, and `wrap64` is applied where the
  source does machine arithmetic (`page*10`).
* Timestamps are whole microseconds since the Unix epoch.
* A `World` value collects everything outside the process that a single
  request depends on: the clock, which database calls fail, how the JSON
  and JWT libraries read the bytes they are given, and whether the schema
  declares a foreign key from `transactions.act` to `account.actno`
  (the schema is not part of the source).
* The database handle carries the committed contents, the working copy
  of an open transaction, and a record of the calls made through it.
-/

namespace Bpm

/-! ## Constants and wire types -/

def RoleParent : String := "parent"

def RoleChild : String := "child"

structure apiAccountTx where
  Date : Nat
  Comment : String
  Amount : Int
deriving DecidableEq, Repr

structure apiAccountData where
  Balance : Int
  Transactions : List apiAccountTx
deriving DecidableEq, Repr

structure apiRequestTx where
  Amount : Int
  Description : String
deriving DecidableEq, Repr

/-- The claim set `jwtClaims`: the fields of `jwt.RegisteredClaims` that matter
here (subject, expiry and not-before, both in Unix seconds) and the two
private claims. -/
structure jwtClaims where
  Subject : String
  ExpiresAt : Option Int
  NotBefore : Option Int
  Role : String
  Account : String
deriving DecidableEq, Repr

structure PublicKey where
  N : Nat
  E : Nat
deriving DecidableEq, Repr

/-- The key installed by `main`. -/
def jwtPublicKey : PublicKey :=
  { N := 0xEF6FAEC06F92BFDB8ADBEB812090EB2F06729645286D0CFD9DE71A8DA4B518DE47C580BC25DE2732DA366C58F232551A2168A2AE884C668D5E5DF1EDE5F53152EA4AE9E0EEA1B3F6F88BC4E0693FA46E2468AF3CAD94B5A3A5D2597F851EBA99AD5B768F42C0CAA305D3E48537A4B7DF68654207BCFE77CA1F3789224F0E67FF23E4243AC14C712C7C11882FC12B431CBB2E71013667D6AABFD257FD2247F7EC4C96528D1E9E1158A7B7A68AF6AC574D767099A27357DC4C5C81CDE89B99141D350A6A7E5A484CB78DF7EE9A8759C335FB362916D9772AC792E5477428773301F3EEAB80C8A6704C289693CCCE33C385FAA1AE5CCB29755005018C395C28E447,
    E := 65537 }

/-! ## Machine integers and `strconv.Atoi` -/

def maxInt : Int := 2 ^ 63 - 1

def minInt : Int := -(2 ^ 63)

/-- Two's-complement reduction of an integer to the range of a Go `int`. -/
def wrap64 (x : Int) : Int := (x + 2 ^ 63) % 2 ^ 64 - 2 ^ 63

/-- Conversion `uint(x)` of a Go `int`. -/
def toUint (x : Int) : Nat := (x % 2 ^ 64).toNat

def isDigit (c : Char) : Bool := decide ('0' ≤ c) && decide (c ≤ '9')

def digitVal (c : Char) : Nat := c.toNat - 48

/-- Value of a digit string read left to right, starting from `acc`. -/
def digitsValue (acc : Nat) : List Char → Nat
  | [] => acc
  | c :: cs => digitsValue (10 * acc + digitVal c) cs

/-- Unsigned part of `strconv.ParseInt(s, 10, 0)`: a non-empty run of ASCII
digits, nothing else (no underscores in base 10). -/
def parseDigits (s : List Char) : Option Nat :=
  if s ≠ [] ∧ s.all isDigit = true then some (digitsValue 0 s) else none

/-- Sign handling of `strconv.Atoi`: one optional leading `+` or `-`. -/
def splitSign : List Char → Bool × List Char
  | [] => (false, [])
  | c :: cs => if c = '-' then (true, cs) else if c = '+' then (false, cs) else (false, c :: cs)

/-- The function `strconv.Atoi`: the value returned and whether an error is
returned with it. A syntax error comes with value 0, a range error with the
nearest representable value. -/
def Atoi (s : List Char) : Int × Bool :=
  match parseDigits (splitSign s).2 with
  | none => (0, true)
  | some n =>
    if (splitSign s).1 then
      (if (n : Int) ≤ 2 ^ 63 then (-(n : Int), false) else (minInt, true))
    else
      (if (n : Int) ≤ maxInt then ((n : Int), false) else (maxInt, true))

/-! ## The store -/

structure AccountRow where
  actno : Int
  balance : Int
deriving DecidableEq, Repr

/-- A row of `transactions`. The columns read back by `loadAccountData` that a
caller outside this program may have left NULL are optional. -/
structure TxRow where
  act : Int
  sub : String
  tstamp : Int
  amount : Option Int
  descr : Option String
deriving DecidableEq, Repr

structure Store where
  account : List AccountRow
  transactions : List TxRow
deriving DecidableEq, Repr

inductive DbCall where
  | queryBalance (account : Int)
  | queryTransactions (account limit offset : Int)
  | begin
  | prepareBalance
  | prepareTx
  | execBalance (amount account : Int)
  | execTx (account : Int) (sub : String) (tstamp amount : Int) (descr : String)
  | commit
  | rollback
deriving DecidableEq, Repr

/-- State behind the handle `db`: committed contents, the working copy of the
open transaction (if any), and the calls issued so far. -/
structure DB where
  store : Store
  tx : Option Store
  calls : List DbCall
deriving DecidableEq, Repr

def DB.call (db : DB) (c : DbCall) : DB :=
  { store := db.store, tx := db.tx, calls := db.calls ++ [c] }

/-- The statement `SELECT balance FROM account WHERE actno = $1` read through
`QueryRow`: the first matching row, or no row. -/
def balanceOf (s : Store) (account : Int) : Option Int :=
  (s.account.find? (fun r => decide (r.actno = account))).map AccountRow.balance

/-- The statement `UPDATE account SET balance = balance + $1 WHERE actno = $2`. -/
def updateBalance (s : Store) (amount account : Int) : Store :=
  { account := s.account.map (fun r =>
      if r.actno = account then { actno := r.actno, balance := r.balance + amount } else r),
    transactions := s.transactions }

/-- The statement `INSERT INTO transactions (act, sub, tstamp, amount, descr)`. -/
def insertTx (s : Store) (account : Int) (sub : String) (tstamp amount : Int)
    (descr : String) : Store :=
  { account := s.account,
    transactions := s.transactions ++
      [{ act := account, sub := sub, tstamp := tstamp, amount := some amount,
         descr := some descr }] }

/-- Sort key order of `ORDER BY tstamp DESC`. -/
def newerEq (a b : TxRow) : Prop := b.tstamp ≤ a.tstamp

instance newerEqDecidable : DecidableRel newerEq := fun a b =>
  inferInstanceAs (Decidable (b.tstamp ≤ a.tstamp))

/-- Rows of one account, newest first; rows with equal timestamps stay in
storage order. -/
def history (s : Store) (account : Int) : List TxRow :=
  (s.transactions.filter (fun r => decide (r.act = account))).insertionSort newerEq

/-- The statement `SELECT tstamp, descr, amount FROM transactions WHERE act = $1
ORDER BY tstamp DESC LIMIT $2 OFFSET $3`; the store refuses a negative LIMIT or
OFFSET. -/
def selectTransactions (s : Store) (account limit offset : Int) : Option (List TxRow) :=
  if limit < 0 ∨ offset < 0 then none
  else some (((history s account).drop offset.toNat).take limit.toNat)

/-! ## Requests, responses and the outside world -/

/-- The parts of `*http.Request` the handlers read. `query` is the parsed query
string (`r.URL.Query()`), `authorization` and `origin` are the values
`r.Header.Get` returns (empty when the header is absent), `body` is the result
of `io.ReadAll(r.Body)` with `none` for a read error. -/
structure Request where
  method : String
  path : String
  query : List (String × String)
  authorization : String
  origin : String
  body : Option String
deriving DecidableEq, Repr

/-- What the `http.ResponseWriter` has been told: the status (200 unless
`WriteHeader` was called), the headers added, and the value written as JSON. -/
structure Response where
  status : Nat
  headers : List (String × String)
  body : Option apiAccountData
deriving DecidableEq, Repr

def Response.ofStatus (code : Nat) : Response := { status := code, headers := [], body := none }

/-- What `jwt.Parse` and `json.Unmarshal` find in the bytes of a compact token:
whether it has the three-segment form with a readable header, the header
algorithm, the RSA key under which the signature verifies, and the outcome of
decoding the claim payload into `jwtClaims` (`none` when decoding fails). -/
structure Token where
  wellFormed : Bool
  alg : String
  signer : PublicKey
  payload : Option jwtClaims
deriving DecidableEq, Repr

/-- Everything outside the process that one request depends on: the clock
(`now`, microseconds), whether the schema has a foreign key from
`transactions.act` to `account.actno` (`actFk`), how `json.Unmarshal` reads a
request body into `apiRequestTx` (`none` when it returns an error), what the
bytes of a bearer token amount to, and for each database call whether it
fails for a reason of its own (connection, range of a column, and so on). A
`Commit` that fails has applied nothing. -/
structure World where
  now : Int
  actFk : Bool
  unmarshalTx : String → Option apiRequestTx
  token : String → Token
  failBalanceQuery : Bool
  failTxQuery : Bool
  failBegin : Bool
  failPrepareBalance : Bool
  failPrepareTx : Bool
  failExecBalance : Bool
  failExecTx : Bool
  failCommit : Bool

/-- The call `r.URL.Query().Get(key)`. -/
def Request.queryGet (r : Request) (key : String) : String :=
  match r.query.find? (fun kv => decide (kv.1 = key)) with
  | some kv => kv.2
  | none => ""

/-! ## Ledger reader -/

inductive LoadError where
  | balance
  | query
deriving DecidableEq, Repr

deriving instance DecidableEq for Except

/-- One `rows.Scan(&timestamp, &tx.Comment, &tx.Amount)`: destinations are filled
left to right and the first NULL stops the scan with an error, leaving the
remaining destinations at their zero values. Returns the three destinations
and whether Scan returned an error. -/
def rowScan (row : TxRow) : (Int × String × Int) × Bool :=
  match row.descr with
  | none => ((row.tstamp, "", 0), true)
  | some d =>
    match row.amount with
    | none => ((row.tstamp, d, 0), true)
    | some a => ((row.tstamp, d, a), false)

/-- The method `time.Time.Unix` on a microsecond timestamp. -/
def unixSeconds (tstamp : Int) : Int := tstamp / 1000000

/-- The value of `tx` at the end of one pass through the `for rows.Next()` loop:
the destinations of the scan, with the date set from the timestamp. A scan
error is logged, which has no effect on `tx`. -/
def scanTx (row : TxRow) : apiAccountTx :=
  { Date := toUint (unixSeconds (rowScan row).1.1), Comment := (rowScan row).1.2.1,
    Amount := (rowScan row).1.2.2 }

/-- Body of the `for rows.Next()` loop: scan, set the date, append. -/
def loadRow (acc : List apiAccountTx) (row : TxRow) : List apiAccountTx :=
  acc ++ [scanTx row]

def loadAccountData (w : World) (account page : Int) (db : DB) :
    Except LoadError apiAccountData × DB :=
  let db1 := db.call (DbCall.queryBalance account)
  match (if w.failBalanceQuery then none else balanceOf db.store account) with
  | none => (Except.error LoadError.balance, db1)
  | some balance =>
    let offset := wrap64 (page * 10)
    let db2 := db1.call (DbCall.queryTransactions account 10 offset)
    match (if w.failTxQuery then none else selectTransactions db.store account 10 offset) with
    | none => (Except.error LoadError.query, db2)
    | some rows =>
      (Except.ok { Balance := balance, Transactions := rows.foldl loadRow [] }, db2)

/-! ## Request parsing -/

def apiLead : List Char := ['/', 'a', 'p', 'i', '/']

/-- Submatch of the pattern `^/api/(\d+)`: the longest run of digits right after
the leading `/api/`, which must not be empty. -/
def rxPath (path : List Char) : Option (List Char) :=
  if path.take 5 = apiLead then
    (if (path.drop 5).takeWhile isDigit = [] then none
     else some ((path.drop 5).takeWhile isDigit))
  else none

/-- The function `getAccount`: `none` stands for the error return. The error of
`strconv.Atoi` is dropped, its value is kept. -/
def getAccount (r : Request) : Option Int :=
  match rxPath r.path.toList with
  | some digits => some (Atoi digits).1
  | none => none

/-- Page number `handleApiGetAccount` derives from the query parameter `p`. -/
def queryPage (r : Request) : Int :=
  if r.queryGet "p" ≠ "" then
    (if (Atoi (r.queryGet "p").toList).2 = false ∧ 0 ≤ (Atoi (r.queryGet "p").toList).1 then
      (Atoi (r.queryGet "p").toList).1
     else 0)
  else 0

/-- Tail of `handleApiGetAccount`: status 500 on a load error, otherwise the
account data as JSON with the cache header (marshalling this struct cannot
fail). -/
def writeAccount (res : Except LoadError apiAccountData × DB) : Response × DB :=
  match res with
  | (Except.error _, db) => (Response.ofStatus 500, db)
  | (Except.ok data, db) =>
    ({ status := 200, headers := [("Cache-Control", "no-store,no-cache")], body := some data }, db)

def handleApiGetAccount (w : World) (account : Int) (r : Request) (db : DB) : Response × DB :=
  writeAccount (loadAccountData w account (queryPage r) db)

/-! ## Ledger writer -/

inductive PostError where
  | readBody
  | unmarshal
  | begin
  | prepareBalance
  | prepareTx
  | execBalance
  | execTx
  | commit
deriving DecidableEq, Repr

/-- The call `db.Begin()` on success: the transaction works on a copy of the
committed contents. -/
def dbBegin (db : DB) : DB := { store := db.store, tx := some db.store, calls := db.calls }

/-- Apply a statement inside the open transaction. -/
def txApply (db : DB) (f : Store → Store) : DB :=
  { store := db.store, tx := db.tx.map f, calls := db.calls }

/-- The call `tx.Commit()` on success: the working copy becomes the committed
contents and the transaction is closed. -/
def txCommit (db : DB) : DB :=
  match db.tx with
  | some work => { store := work, tx := none, calls := db.calls }
  | none => db

/-- The deferred `tx.Rollback()`: drops the working copy of a transaction
that is still open, and does nothing to one already committed. -/
def txRollback (db : DB) : DB :=
  { store := db.store, tx := none, calls := db.calls ++ [DbCall.rollback] }

/-- Whether the INSERT is rejected by the store: a failure from outside, or a
foreign key on `act` with no account row to point at. -/
def insertRejected (w : World) (work : Option Store) (account : Int) : Bool :=
  w.failExecTx || (w.actFk && (work.bind (fun s => balanceOf s account)).isNone)

/-- Statements of `handleApiPostAccount` after `db.Begin()` succeeded, up to
the return; the deferred rollback is applied by the caller. -/
def postInTx (w : World) (account : Int) (sub : String) (apiRequest : apiRequestTx)
    (db : DB) : Option PostError × DB :=
  let db1 := db.call DbCall.prepareBalance
  if w.failPrepareBalance then (some PostError.prepareBalance, db1) else
  let db2 := db1.call DbCall.prepareTx
  if w.failPrepareTx then (some PostError.prepareTx, db2) else
  let db3 := db2.call (DbCall.execBalance apiRequest.Amount account)
  if w.failExecBalance then (some PostError.execBalance, db3) else
  let db4 := txApply db3 (fun s => updateBalance s apiRequest.Amount account)
  let db5 := db4.call
    (DbCall.execTx account sub w.now apiRequest.Amount apiRequest.Description)
  if insertRejected w db4.tx account then (some PostError.execTx, db5) else
  let db6 := txApply db5
    (fun s => insertTx s account sub w.now apiRequest.Amount apiRequest.Description)
  let db7 := db6.call DbCall.commit
  if w.failCommit then (some PostError.commit, db7) else
  (none, txCommit db7)

/-- The function `handleApiPostAccount`: the error returned (`none` for nil)
and the database afterwards. -/
def handleApiPostAccount (w : World) (account : Int) (sub : String) (r : Request)
    (db : DB) : Option PostError × DB :=
  match r.body with
  | none => (some PostError.readBody, db)
  | some body =>
    match w.unmarshalTx body with
    | none => (some PostError.unmarshal, db)
    | some apiRequest =>
      let db1 := db.call DbCall.begin
      if w.failBegin then (some PostError.begin, db1) else
      let res := postInTx w account sub apiRequest (dbBegin db1)
      (res.1, txRollback res.2)

/-! ## Dispatch and authentication -/

def handleApi (w : World) (account : Int) (sub : String) (r : Request) (role : String)
    (db : DB) : Response × DB :=
  if r.method = "GET" then handleApiGetAccount w account r db
  else if r.method = "POST" then
    (if role = RoleChild then (Response.ofStatus 401, db)
     else
      match handleApiPostAccount w account sub r db with
      | (some _, db1) => (Response.ofStatus 500, db1)
      | (none, db1) => (Response.ofStatus 200, db1))
  else (Response.ofStatus 200, db)

/-- The function `handleCorsPreflight`: `some` response when it handled the
request (returned true), `none` when it returned false. -/
def handleCorsPreflight (r : Request) : Option Response :=
  if r.method = "OPTIONS" then
    (if r.origin = "https://jan.monster" then
      some { status := 204,
             headers := [("Access-Control-Request-Method", "GET"),
                         ("Access-Control-Request-Method", "POST"),
                         ("Access-Control-Allow-Origin", "https://jan.monster")],
             body := none }
     else some (Response.ofStatus 400))
  else none

/-- White space of the pattern class `\s`. -/
def isSpace (c : Char) : Bool :=
  c = '\t' || c = '\n' || c = '\x0c' || c = '\r' || c = ' '

def bearerLead : List Char := ['B', 'e', 'a', 'r', 'e', 'r']

/-- Submatch of the pattern `^Bearer\s+(\S+)`: after the leading word and at
least one white-space character, the longest run of other characters, which
must not be empty. -/
def tokenRx (auth : List Char) : Option (List Char) :=
  if auth.take 6 = bearerLead then
    (if (auth.drop 6).takeWhile isSpace = [] then none
     else if ((auth.drop 6).dropWhile isSpace).takeWhile (fun c => !isSpace c) = [] then none
     else some (((auth.drop 6).dropWhile isSpace).takeWhile (fun c => !isSpace c)))
  else none

/-- The call `jwt.Parse(raw, vrfy)` with the RS256 verifier for `jwtPublicKey`
(cristalhq/jwt v4): the token is decoded, its header algorithm compared with
the verifier and its signature checked. The claim payload is handed back as
raw bytes; the library does not read it. -/
def jwtParse (t : Token) : Option Token :=
  if t.wellFormed = true ∧ t.alg = "RS256" ∧ t.signer = jwtPublicKey then some t else none

def authJWT (w : World) (handler : Int → String → Request → String → DB → Response × DB)
    (r : Request) (db : DB) : Response × DB :=
  match handleCorsPreflight r with
  | some resp => (resp, db)
  | none =>
    match getAccount r with
    | none => (Response.ofStatus 400, db)
    | some account =>
      match tokenRx r.authorization.toList with
      | none => (Response.ofStatus 401, db)
      | some raw =>
        match jwtParse (w.token (String.mk raw)) with
        | none => (Response.ofStatus 401, db)
        | some token =>
          match token.payload with
          | none => (Response.ofStatus 401, db)
          | some claims => handler account claims.Subject r claims.Role db

/-! ## Auxiliary notions used to state properties -/

/-- One call of `handleApiPostAccount` with everything it depends on. -/
structure PostCall where
  world : World
  account : Int
  sub : String
  request : Request

/-- Run a sequence of posts against the database, one after the other. -/
def runPosts (calls : List PostCall) (db : DB) : DB :=
  calls.foldl (fun d c => (handleApiPostAccount c.world c.account c.sub c.request d).2) db

/-- Sum of the amounts of the rows of one account. -/
def amountSum (account : Int) (rows : List TxRow) : Int :=
  ((rows.filter (fun r => decide (r.act = account))).map (fun r => r.amount.getD 0)).sum

/-- A token is outside its validity window at Unix time `t` (seconds) when it
has expired or is not yet valid, as `RegisteredClaims.IsValidAt` decides it. -/
def outsideValidity (c : jwtClaims) (t : Int) : Bool :=
  (match c.ExpiresAt with
   | some e => decide (e ≤ t)
   | none => false) ||
  (match c.NotBefore with
   | some n => decide (t < n)
   | none => false)

/-! ## Concrete inputs used in examples -/

def bodyWithdraw : String := "\x7b\"amount\":-30,\"desc\":\"withdraw\"\x7d"

/-- A JSON reader that understands exactly one body. -/
def readWithdraw (b : String) : Option apiRequestTx :=
  if b = bodyWithdraw then some { Amount := -30, Description := "withdraw" } else none

/-- Claims of a parent whose token expired at Unix second 1000. -/
def staleParentClaims : jwtClaims :=
  { Subject := "alice", ExpiresAt := some 1000, NotBefore := none, Role := "parent",
    Account := "42" }

/-- Claims of a child, valid until Unix second 1800000000. -/
def childClaims : jwtClaims :=
  { Subject := "bob", ExpiresAt := some 1800000000, NotBefore := none, Role := "child",
    Account := "42" }

def otherKey : PublicKey := { N := 3233, E := 17 }

/-- Four tokens: a parent's and a child's signed with the configured key, one
signed with another key, one whose payload does not decode; anything else is not
a token. -/
def readToken (raw : String) : Token :=
  if raw = "stale.parent" then
    { wellFormed := true, alg := "RS256", signer := jwtPublicKey,
      payload := some staleParentClaims }
  else if raw = "fresh.child" then
    { wellFormed := true, alg := "RS256", signer := jwtPublicKey, payload := some childClaims }
  else if raw = "forged" then
    { wellFormed := true, alg := "RS256", signer := otherKey,
      payload := some staleParentClaims }
  else if raw = "garbled" then
    { wellFormed := true, alg := "RS256", signer := jwtPublicKey, payload := none }
  else { wellFormed := false, alg := "", signer := otherKey, payload := none }

/-- A world in which nothing fails, at Unix second 1700000000. -/
def calmWorld : World :=
  { now := 1700000000000000, actFk := false, unmarshalTx := readWithdraw,
    token := readToken, failBalanceQuery := false, failTxQuery := false,
    failBegin := false, failPrepareBalance := false, failPrepareTx := false,
    failExecBalance := false, failExecTx := false, failCommit := false }

/-- The same world, except that the INSERT fails. -/
def insertFailsWorld : World :=
  { now := 1700000000000000, actFk := false, unmarshalTx := readWithdraw,
    token := readToken, failBalanceQuery := false, failTxQuery := false,
    failBegin := false, failPrepareBalance := false, failPrepareTx := false,
    failExecBalance := false, failExecTx := true, failCommit := false }

/-- Account 42 with balance 100 and no transactions. -/
def db42 : DB :=
  { store := { account := [{ actno := 42, balance := 100 }], transactions := [] },
    tx := none, calls := [] }

def postWithdraw : Request :=
  { method := "POST", path := "/api/42", query := [], authorization := "Bearer stale.parent",
    origin := "", body := some bodyWithdraw }

def withdrawCall : PostCall :=
  { world := calmWorld, account := 42, sub := "alice", request := postWithdraw }

def withdrawRow : TxRow :=
  { act := 42, sub := "alice", tstamp := 1700000000000000, amount := some (-30),
    descr := some "withdraw" }

def postAsChild : Request :=
  { method := "POST", path := "/api/42", query := [], authorization := "Bearer fresh.child",
    origin := "", body := some bodyWithdraw }

def postGarbage : Request :=
  { method := "POST", path := "/api/42", query := [], authorization := "Bearer stale.parent",
    origin := "", body := some "amount: lots" }

def postForged : Request :=
  { method := "POST", path := "/api/42", query := [], authorization := "Bearer forged",
    origin := "", body := some bodyWithdraw }

def postGarbled : Request :=
  { method := "POST", path := "/api/42", query := [], authorization := "Bearer garbled",
    origin := "", body := some bodyWithdraw }

/-- A CORS preflight from the allowed origin that also carries a token signed
with another key. -/
def preflightForged : Request :=
  { method := "OPTIONS", path := "/api/42", query := [], authorization := "Bearer forged",
    origin := "https://jan.monster", body := none }

/-- A CORS preflight from the allowed origin on a path without account number. -/
def preflightNoAccount : Request :=
  { method := "OPTIONS", path := "/api/abc", query := [], authorization := "",
    origin := "https://jan.monster", body := none }

/-- A handler that would answer 299 and empty the store if it were called. -/
def wipeHandler (_account : Int) (_sub : String) (_r : Request) (_role : String)
    (db : DB) : Response × DB :=
  (Response.ofStatus 299, { store := { account := [], transactions := [] }, tx := db.tx,
                            calls := db.calls })

/-! ## Decimal text -/

/-- The list `s` is the decimal text of `n`: one or more ASCII digits whose
positional value is `n`. -/
def DecimalText (s : List Char) (n : Nat) : Prop :=
  s ≠ [] ∧ (∀ c ∈ s, isDigit c = true) ∧ Nat.ofDigits 10 (s.reverse.map digitVal) = n

instance decimalTextDecidable (s : List Char) (n : Nat) : Decidable (DecimalText s n) := by
  unfold DecimalText
  infer_instance

/-- Text of an integer: an optional sign followed by one or more digits. -/
def isIntegerText : List Char → Bool
  | [] => false
  | c :: cs =>
    if c = '-' ∨ c = '+' then (!cs.isEmpty && cs.all isDigit) else (c :: cs).all isDigit

/-- Text of a negative integer: a minus sign followed by one or more digits. -/
def isNegativeText : List Char → Bool
  | [] => false
  | c :: cs => decide (c = '-') && !cs.isEmpty && cs.all isDigit

def startsWithDigit : List Char → Bool
  | [] => false
  | c :: _ => isDigit c

def getP (raw : String) : Request :=
  { method := "GET", path := "/api/42", query := [("p", raw)],
    authorization := "Bearer stale.parent", origin := "", body := none }

def getPath (path : String) : Request :=
  { method := "GET", path := path, query := [], authorization := "Bearer stale.parent",
    origin := "", body := none }

/-- Account 42 with one complete row and one newer row whose `descr` is NULL. -/
def db42null : DB :=
  { store :=
      { account := [{ actno := 42, balance := 100 }],
        transactions :=
          [{ act := 42, sub := "alice", tstamp := 1600000000000000, amount := some 5,
             descr := some "gift" },
           { act := 42, sub := "alice", tstamp := 1700000000000000, amount := some (-30),
             descr := none }] },
    tx := none, calls := [] }

end Bpm

/-! # Properties -/

namespace Bpm

/-! ## The store under the write path -/

theorem call_store (db : DB) (c : DbCall) : (db.call c).store = db.store := rfl

theorem postInTx_error_store (w : World) (account : Int) (sub : String) (q : apiRequestTx)
    (db : DB) (h : (postInTx w account sub q db).1 ≠ none) :
    (postInTx w account sub q db).2.store = db.store := by
  unfold postInTx at *
  simp only [] at *
  split_ifs at *
  all_goals simp_all [DB.call, txApply]

theorem postInTx_ok_store (w : World) (account : Int) (sub : String) (q : apiRequestTx)
    (db : DB) (work : Store) (hw : db.tx = some work)
    (h : (postInTx w account sub q db).1 = none) :
    (postInTx w account sub q db).2.store =
      insertTx (updateBalance work q.Amount account) account sub w.now q.Amount
        q.Description := by
  unfold postInTx at *
  simp only [] at *
  split_ifs at *
  all_goals simp_all [DB.call, txApply, txCommit]

theorem post_error_store (w : World) (account : Int) (sub : String) (r : Request) (db : DB)
    (h : (handleApiPostAccount w account sub r db).1 ≠ none) :
    (handleApiPostAccount w account sub r db).2.store = db.store := by
  unfold handleApiPostAccount at *
  cases hb : r.body with
  | none => simp [hb]
  | some body =>
    cases hq : w.unmarshalTx body with
    | none => simp [hb, hq]
    | some q =>
      simp only [hb, hq] at h ⊢
      by_cases hf : w.failBegin = true
      · simp [hf, DB.call]
      · simp only [hf] at h ⊢
        have := postInTx_error_store w account sub q (dbBegin (db.call DbCall.begin)) h
        simpa [txRollback, dbBegin, DB.call] using this

theorem post_store_cases (w : World) (account : Int) (sub : String) (r : Request) (db : DB) :
    (handleApiPostAccount w account sub r db).2.store = db.store ∨
    ∃ q : apiRequestTx, (handleApiPostAccount w account sub r db).2.store =
      insertTx (updateBalance db.store q.Amount account) account sub w.now q.Amount
        q.Description := by
  by_cases h : (handleApiPostAccount w account sub r db).1 = none
  · unfold handleApiPostAccount at *
    cases hb : r.body with
    | none => simp [hb] at h
    | some body =>
      cases hq : w.unmarshalTx body with
      | none => simp [hb, hq] at h
      | some q =>
        simp only [hb, hq] at h ⊢
        by_cases hf : w.failBegin = true
        · simp [hf] at h
        · simp only [hf] at h ⊢
          right
          refine ⟨q, ?_⟩
          have := postInTx_ok_store w account sub q (dbBegin (db.call DbCall.begin)) db.store
            rfl h
          simpa [txRollback] using this
  · exact Or.inl (post_error_store w account sub r db h)

theorem postInTx_error_of_failure (w : World) (account : Int) (sub : String)
    (q : apiRequestTx) (db : DB)
    (h : w.failPrepareBalance = true ∨ w.failPrepareTx = true ∨ w.failExecBalance = true ∨
      w.failExecTx = true ∨ w.failCommit = true) :
    (postInTx w account sub q db).1 ≠ none := by
  unfold postInTx
  simp only []
  split_ifs with h1 h2 h3 h4 h5
  all_goals simp_all [insertRejected]

theorem post_error_of_failure (w : World) (account : Int) (sub : String) (r : Request)
    (db : DB)
    (h : (∀ body : String, r.body = some body → w.unmarshalTx body = none) ∨
      w.failBegin = true ∨ w.failPrepareBalance = true ∨ w.failPrepareTx = true ∨
      w.failExecBalance = true ∨ w.failExecTx = true ∨ w.failCommit = true) :
    (handleApiPostAccount w account sub r db).1 ≠ none := by
  unfold handleApiPostAccount
  cases hb : r.body with
  | none => simp
  | some body =>
    cases hq : w.unmarshalTx body with
    | none => simp [hq]
    | some q =>
      simp only [hq]
      by_cases hf : w.failBegin = true
      · simp [hf]
      · simp only [hf]
        rcases h with h | h | h
        · rw [h body hb] at hq
          exact absurd hq (by simp)
        · exact absurd h hf
        · exact postInTx_error_of_failure w account sub q _ h

/-! ## Balances and amounts -/

theorem find_actno_map_add (l : List AccountRow) (amount account a : Int) :
    ((l.map (fun r : AccountRow =>
        if r.actno = account then { actno := r.actno, balance := r.balance + amount } else r)).find?
      (fun r => decide (r.actno = a))).map AccountRow.balance =
    if a = account then ((l.find? (fun r => decide (r.actno = a))).map AccountRow.balance).map
        (fun b => b + amount)
      else (l.find? (fun r => decide (r.actno = a))).map AccountRow.balance := by
  induction l with
  | nil => simp
  | cons x xs ih =>
    by_cases hx : x.actno = account
    · by_cases ha : a = account
      · subst ha
        simp [List.find?, hx]
      · have hxa : ¬ account = a := fun e => ha e.symm
        simp only [ha, if_false] at ih ⊢
        simp only [List.map_cons, hx, if_true, List.find?, hxa, decide_False]
        exact ih
    · by_cases hxa : x.actno = a
      · have ha : ¬ a = account := fun e => hx (hxa.trans e)
        simp [List.find?, hx, hxa, ha]
      · by_cases ha : a = account
        · simp only [ha, if_true] at ih ⊢
          have hxa2 : ¬ x.actno = account := hx
          simp only [List.map_cons, hx, if_false, List.find?, hxa2, decide_False]
          exact ih
        · simp only [ha, if_false] at ih ⊢
          simp only [List.map_cons, hx, if_false, List.find?, hxa, decide_False]
          exact ih

theorem balanceOf_updateBalance (s : Store) (amount account a : Int) :
    balanceOf (updateBalance s amount account) a =
      if a = account then (balanceOf s a).map (fun b => b + amount) else balanceOf s a := by
  unfold balanceOf updateBalance
  exact find_actno_map_add s.account amount account a

theorem balanceOf_insertTx (s : Store) (account : Int) (sub : String) (t amount : Int)
    (descr : String) (a : Int) :
    balanceOf (insertTx s account sub t amount descr) a = balanceOf s a := rfl

theorem amountSum_nil (a : Int) : amountSum a [] = 0 := rfl

theorem amountSum_append (a : Int) (xs ys : List TxRow) :
    amountSum a (xs ++ ys) = amountSum a xs + amountSum a ys := by
  simp [amountSum]

theorem amountSum_inserted (a account : Int) (sub : String) (t amount : Int) (descr : String) :
    amountSum a [{ act := account, sub := sub, tstamp := t, amount := some amount,
                   descr := some descr }] = if a = account then amount else 0 := by
  by_cases h : account = a
  · subst h
    simp [amountSum]
  · have h2 : ¬ a = account := fun e => h e.symm
    simp [amountSum, h, h2]

/-- One post: the rows of `transactions` grow by a list `rows`, and the balance of
every account that has a row moves by the amounts in `rows` booked to it. -/
theorem post_step_ledger (w : World) (account : Int) (sub : String) (r : Request) (db : DB)
    (a : Int) :
    ∃ rows : List TxRow,
      (handleApiPostAccount w account sub r db).2.store.transactions =
        db.store.transactions ++ rows ∧
      ∀ b : Int, balanceOf db.store a = some b →
        balanceOf (handleApiPostAccount w account sub r db).2.store a =
          some (b + amountSum a rows) := by
  rcases post_store_cases w account sub r db with h | ⟨q, h⟩
  · refine ⟨[], by simp [h], ?_⟩
    intro b hb
    rw [h, hb, amountSum_nil, add_zero]
  · refine ⟨[{ act := account, sub := sub, tstamp := w.now, amount := some q.Amount,
               descr := some q.Description }], by rw [h]; rfl, ?_⟩
    intro b hb
    rw [h, balanceOf_insertTx, balanceOf_updateBalance, amountSum_inserted, hb]
    by_cases ha : a = account
    · simp [ha]
    · simp [ha]

theorem runPosts_cons (c : PostCall) (cs : List PostCall) (db : DB) :
    runPosts (c :: cs) db =
      runPosts cs (handleApiPostAccount c.world c.account c.sub c.request db).2 := rfl

theorem runPosts_ledger (calls : List PostCall) (a : Int) :
    ∀ (db : DB) (b : Int), balanceOf db.store a = some b →
      ∃ appended : List TxRow,
        (runPosts calls db).store.transactions = db.store.transactions ++ appended ∧
        balanceOf (runPosts calls db).store a = some (b + amountSum a appended) := by
  induction calls with
  | nil =>
    intro db b hb
    exact ⟨[], by simp [runPosts], by simpa [runPosts, amountSum_nil] using hb⟩
  | cons c cs ih =>
    intro db b hb
    obtain ⟨rows1, ht1, hb1⟩ := post_step_ledger c.world c.account c.sub c.request db a
    obtain ⟨rows2, ht2, hb2⟩ := ih _ _ (hb1 b hb)
    refine ⟨rows1 ++ rows2, ?_, ?_⟩
    · rw [runPosts_cons, ht2, ht1, List.append_assoc]
    · rw [runPosts_cons, hb2, amountSum_append, add_assoc]

theorem postInTx_error_of_fk (w : World) (account : Int) (sub : String) (q : apiRequestTx)
    (db : DB) (work : Store) (hw : db.tx = some work) (hfk : w.actFk = true)
    (hnone : balanceOf work account = none) : (postInTx w account sub q db).1 ≠ none := by
  unfold postInTx
  simp only []
  split_ifs with h1 h2 h3 h4 h5
  all_goals simp_all [insertRejected, txApply, DB.call, balanceOf_updateBalance]

/-- With a foreign key on `transactions.act`, a post to an account number that
has no account row is rolled back: the INSERT is rejected after the UPDATE
matched nothing. -/
theorem post_unknown_account_with_fk (w : World) (account : Int) (sub : String) (r : Request)
    (db : DB) (hfk : w.actFk = true) (hnone : balanceOf db.store account = none) :
    (handleApiPostAccount w account sub r db).1 ≠ none ∧
    (handleApiPostAccount w account sub r db).2.store = db.store := by
  have herr : (handleApiPostAccount w account sub r db).1 ≠ none := by
    unfold handleApiPostAccount
    cases hb : r.body with
    | none => simp
    | some body =>
      cases hq : w.unmarshalTx body with
      | none => simp [hq]
      | some q =>
        simp only [hq]
        by_cases hf : w.failBegin = true
        · simp [hf]
        · simp only [hf]
          exact postInTx_error_of_fk w account sub q _ db.store rfl hfk hnone
  exact ⟨herr, post_error_store w account sub r db herr⟩

/-! ## C1: ledger invariant -/

/-- C1, as stated, fails: with no row for account 7 in `account` and no foreign
key on `transactions.act`, a post to account 7 commits a transaction row of
amount -30 for it while no balance anywhere changes. -/
theorem post_to_unknown_account_books_no_balance :
    balanceOf db42.store 7 = none ∧
    (handleApiPostAccount calmWorld 7 "alice" postWithdraw db42).1 = none ∧
    (handleApiPostAccount calmWorld 7 "alice" postWithdraw db42).2.store.transactions =
      [{ act := 7, sub := "alice", tstamp := 1700000000000000, amount := some (-30),
         descr := some "withdraw" }] ∧
    (handleApiPostAccount calmWorld 7 "alice" postWithdraw db42).2.store.account =
      db42.store.account := by
  decide

/-- C1 (amended): for every database state, every account number that has a
row in `account`, and every sequence of posts (any target, subject, body and
failures), the transaction table only grows, and the balance of the account
afterwards is its balance before plus the sum of the amounts of the rows the
sequence appended for that account. -/
theorem ledger_invariant (calls : List PostCall) (db : DB) (a b : Int)
    (h : balanceOf db.store a = some b) :
    ∃ appended : List TxRow,
      (runPosts calls db).store.transactions = db.store.transactions ++ appended ∧
      balanceOf (runPosts calls db).store a = some (b + amountSum a appended) :=
  runPosts_ledger calls a db b h

/-- Account 42 with balance 100 and no transactions: after the post of -30 the
balance is 70 and the only row has amount -30. -/
theorem ledger_invariant_witness :
    balanceOf db42.store 42 = some 100 ∧
    (∃ appended : List TxRow,
      (runPosts [withdrawCall] db42).store.transactions =
        db42.store.transactions ++ appended ∧
      balanceOf (runPosts [withdrawCall] db42).store 42 =
        some (100 + amountSum 42 appended)) ∧
    balanceOf (runPosts [withdrawCall] db42).store 42 = some 70 ∧
    (runPosts [withdrawCall] db42).store.transactions = [withdrawRow] :=
  ⟨by decide,
   ledger_invariant [withdrawCall] db42 42 100 (by decide),
   by decide, by decide⟩

/-! ## C2: atomicity on failure -/

/-- C2: whenever `handleApiPostAccount` returns an error, whatever the stage,
the committed store afterwards is the store before the call. A failure to read
or decode the body, to begin, to prepare either statement, to execute either
statement or to commit does make the call return an error. In particular,
when the body decodes, the transaction begins, both statements are prepared
and the balance update executes, but the INSERT fails, the call returns that
error and the store is unchanged. -/
theorem post_failure_is_atomic (w : World) (account : Int) (sub : String) (r : Request)
    (db : DB) :
    ((handleApiPostAccount w account sub r db).1 ≠ none →
      (handleApiPostAccount w account sub r db).2.store = db.store) ∧
    (((∀ body : String, r.body = some body → w.unmarshalTx body = none) ∨
        w.failBegin = true ∨ w.failPrepareBalance = true ∨ w.failPrepareTx = true ∨
        w.failExecBalance = true ∨ w.failExecTx = true ∨ w.failCommit = true) →
      (handleApiPostAccount w account sub r db).1 ≠ none ∧
      (handleApiPostAccount w account sub r db).2.store = db.store) ∧
    (∀ (body : String) (q : apiRequestTx), r.body = some body → w.unmarshalTx body = some q →
      w.failBegin = false → w.failPrepareBalance = false → w.failPrepareTx = false →
      w.failExecBalance = false → w.failExecTx = true →
      (handleApiPostAccount w account sub r db).1 = some PostError.execTx ∧
      (handleApiPostAccount w account sub r db).2.store = db.store) := by
  refine ⟨post_error_store w account sub r db, ?_, ?_⟩
  · intro hfail
    have herr : (handleApiPostAccount w account sub r db).1 ≠ none :=
      post_error_of_failure w account sub r db hfail
    exact ⟨herr, post_error_store w account sub r db herr⟩
  · intro body q hb hq h1 h2 h3 h4 h5
    have herr : (handleApiPostAccount w account sub r db).1 = some PostError.execTx := by
      simp [handleApiPostAccount, postInTx, insertRejected, hb, hq, h1, h2, h3, h4, h5]
    exact ⟨herr, post_error_store w account sub r db (by rw [herr]; simp)⟩

/-- Account 42 with balance 100: the INSERT fails after the UPDATE ran, the
call returns the error and the balance is still 100 with no row added. -/
theorem post_failure_is_atomic_witness :
    (handleApiPostAccount insertFailsWorld 42 "alice" postWithdraw db42).1 =
      some PostError.execTx ∧
    (handleApiPostAccount insertFailsWorld 42 "alice" postWithdraw db42).2.store =
      db42.store ∧
    balanceOf (handleApiPostAccount insertFailsWorld 42 "alice" postWithdraw db42).2.store 42 =
      some 100 :=
  ⟨((post_failure_is_atomic insertFailsWorld 42 "alice" postWithdraw db42).2.2 bodyWithdraw
      (apiRequestTx.mk (-30) "withdraw") rfl (by decide) rfl rfl rfl rfl rfl).1,
   (post_failure_is_atomic insertFailsWorld 42 "alice" postWithdraw db42).1 (by decide),
   by decide⟩

theorem postInTx_failure_of_error (w : World) (account : Int) (sub : String)
    (q : apiRequestTx) (db : DB) (work : Store) (hw : db.tx = some work)
    (h : (postInTx w account sub q db).1 ≠ none) :
    w.failPrepareBalance = true ∨ w.failPrepareTx = true ∨ w.failExecBalance = true ∨
      w.failExecTx = true ∨ w.failCommit = true ∨
      (w.actFk = true ∧ balanceOf work account = none) := by
  by_cases h1 : w.failPrepareBalance = true
  · exact Or.inl h1
  by_cases h2 : w.failPrepareTx = true
  · exact Or.inr (Or.inl h2)
  by_cases h3 : w.failExecBalance = true
  · exact Or.inr (Or.inr (Or.inl h3))
  by_cases h4 : w.failExecTx = true
  · exact Or.inr (Or.inr (Or.inr (Or.inl h4)))
  by_cases h5 : w.failCommit = true
  · exact Or.inr (Or.inr (Or.inr (Or.inr (Or.inl h5))))
  by_cases h6 : w.actFk = true ∧ balanceOf work account = none
  · exact Or.inr (Or.inr (Or.inr (Or.inr (Or.inr h6))))
  · exfalso
    apply h
    have hrej : insertRejected w
        (txApply (((db.call DbCall.prepareBalance).call DbCall.prepareTx).call
          (DbCall.execBalance q.Amount account))
          (fun s => updateBalance s q.Amount account)).tx account = false := by
      by_cases hfk : w.actFk = true
      · have hbal : balanceOf work account ≠ none := fun e => h6 ⟨hfk, e⟩
        cases hb : balanceOf work account with
        | none => exact absurd hb hbal
        | some b =>
          simp [insertRejected, txApply, DB.call, hw, balanceOf_updateBalance, hb, h4]
      · simp [insertRejected, h4, hfk]
    unfold postInTx
    simp only [h1, h2, h3, h5, hrej]
    simp

theorem post_failure_of_error (w : World) (account : Int) (sub : String) (r : Request)
    (db : DB) (h : (handleApiPostAccount w account sub r db).1 ≠ none) :
    (∀ body : String, r.body = some body → w.unmarshalTx body = none) ∨
      w.failBegin = true ∨ w.failPrepareBalance = true ∨ w.failPrepareTx = true ∨
      w.failExecBalance = true ∨ w.failExecTx = true ∨ w.failCommit = true ∨
      (w.actFk = true ∧ balanceOf db.store account = none) := by
  cases hb : r.body with
  | none =>
    left
    intro body hbody
    exact absurd hbody (by simp)
  | some body =>
    cases hq : w.unmarshalTx body with
    | none =>
      left
      intro b' hb'
      have : b' = body := (Option.some.inj hb').symm
      rw [this]
      exact hq
    | some q =>
      right
      by_cases hf : w.failBegin = true
      · exact Or.inl hf
      · right
        unfold handleApiPostAccount at h
        simp only [hb, hq, hf] at h
        exact postInTx_failure_of_error w account sub q (dbBegin (db.call DbCall.begin))
          db.store rfl h

/-- A POST from a role other than "child": the answer of `handleApi` is that of
`handleApiPostAccount`, status 200 for no error and 500 for any error. -/
theorem handleApi_post (w : World) (account : Int) (sub : String) (r : Request)
    (role : String) (db : DB) (hm : r.method = "POST") (hr : role ≠ RoleChild) :
    handleApi w account sub r role db =
      (Response.ofStatus (if (handleApiPostAccount w account sub r db).1 = none then 200
        else 500), (handleApiPostAccount w account sub r db).2) := by
  simp only [handleApi, hm, hr]
  rcases hres : handleApiPostAccount w account sub r db with ⟨e, d⟩
  cases e <;> simp

theorem handleApi_status (w : World) (account : Int) (sub : String) (r : Request)
    (role : String) (db : DB) :
    (handleApi w account sub r role db).1.status = 200 ∨
    (handleApi w account sub r role db).1.status = 401 ∨
    (handleApi w account sub r role db).1.status = 500 := by
  unfold handleApi
  by_cases hg : r.method = "GET"
  · simp only [hg, if_true]
    unfold handleApiGetAccount writeAccount
    rcases hres : loadAccountData w account (queryPage r) db with ⟨e, d⟩
    cases e with
    | error x => right; right; rfl
    | ok x => left; rfl
  · simp only [hg, if_false]
    by_cases hp : r.method = "POST"
    · simp only [hp, if_true]
      by_cases hc : role = RoleChild
      · right; left
        simp [hc, Response.ofStatus]
      · simp only [hc, if_false]
        rcases hres : handleApiPostAccount w account sub r db with ⟨e, d⟩
        cases e with
        | none => left; rfl
        | some x => right; right; rfl
    · left
      simp [hp, Response.ofStatus]

/-! ## C3, C5, C8: the role gate and the status of a failed post -/

/-- C3: a POST handled by `handleApi` with role "child" is answered 401 and
leaves the database exactly as it was, for every world, account, subject and
request: no call is made on the handle, so `handleApiPostAccount` is not
reached and no balance or transaction row changes. The same holds from the
outside: a POST whose bearer token carries the role "child" gets 401 from
`authJWT` wrapped around `handleApi`, database untouched. -/
theorem child_post_is_refused (w : World) (account : Int) (sub : String) (r : Request)
    (db : DB) (h : r.method = "POST") :
    handleApi w account sub r "child" db = (Response.ofStatus 401, db) ∧
    (∀ (acct : Int) (raw : List Char) (claims : jwtClaims), getAccount r = some acct →
      tokenRx r.authorization.toList = some raw →
      (w.token (String.mk raw)).payload = some claims → claims.Role = "child" →
      authJWT w (handleApi w) r db = (Response.ofStatus 401, db)) := by
  have hdirect : ∀ (a : Int) (s : String),
      handleApi w a s r "child" db = (Response.ofStatus 401, db) := by
    intro a s
    simp [handleApi, h, RoleChild]
  refine ⟨hdirect account sub, ?_⟩
  intro acct raw claims hacct hraw hpay hrole
  have hpre : handleCorsPreflight r = none := by simp [handleCorsPreflight, h]
  unfold authJWT
  simp only [hpre, hacct, hraw]
  cases hp : jwtParse (w.token (String.mk raw)) with
  | none => rfl
  | some token =>
    simp only []
    have hparse := hp
    unfold jwtParse at hparse
    split_ifs at hparse with hok
    have htok : w.token (String.mk raw) = token := Option.some.inj hparse
    rw [htok] at hpay
    simp only [hpay, hrole]
    exact hdirect acct claims.Subject

/-- Account 42 with balance 100: after the refused post the balance is still 100
and there is no transaction, both at `handleApi` and through `authJWT` with a
child's token. -/
theorem child_post_is_refused_witness :
    handleApi calmWorld 42 "bob" postAsChild "child" db42 = (Response.ofStatus 401, db42) ∧
    authJWT calmWorld (handleApi calmWorld) postAsChild db42 = (Response.ofStatus 401, db42) ∧
    balanceOf (authJWT calmWorld (handleApi calmWorld) postAsChild db42).2.store 42 =
      some 100 ∧
    (authJWT calmWorld (handleApi calmWorld) postAsChild db42).2.store.transactions = [] :=
  ⟨(child_post_is_refused calmWorld 42 "bob" postAsChild db42 rfl).1,
   (child_post_is_refused calmWorld 42 "bob" postAsChild db42 rfl).2 42 "fresh.child".toList
      childClaims (by decide) (by decide) (by decide) rfl,
   by decide, by decide⟩

/-- C5, as stated, fails: a POST with the empty role (neither "parent" nor
"child") is carried out: status 200, balance 100 becomes 70, one row added. -/
theorem empty_role_can_post :
    "" ≠ RoleParent ∧ "" ≠ RoleChild ∧
    (handleApi calmWorld 42 "mallory" postWithdraw "" db42).1.status = 200 ∧
    balanceOf (handleApi calmWorld 42 "mallory" postWithdraw "" db42).2.store 42 = some 70 ∧
    (handleApi calmWorld 42 "mallory" postWithdraw "" db42).2.store.transactions.length = 1 := by
  decide

/-- C5 (amended): for every role string other than "child" (the empty string
and unrecognised values included), a POST handled by `handleApi` is passed to
`handleApiPostAccount` and treated exactly as with role "parent": the database
afterwards is the one that call leaves, and the status is 200 when it returns
no error and 500 otherwise. -/
theorem post_gate_refuses_only_child (w : World) (account : Int) (sub : String) (r : Request)
    (role : String) (db : DB) (hm : r.method = "POST") (hr : role ≠ "child") :
    handleApi w account sub r role db = handleApi w account sub r "parent" db ∧
    (handleApi w account sub r role db).2 = (handleApiPostAccount w account sub r db).2 ∧
    (handleApi w account sub r role db).1 =
      Response.ofStatus (if (handleApiPostAccount w account sub r db).1 = none then 200 else 500)
    := by
  have hp : ¬ ("parent" = RoleChild) := by decide
  have hr2 : ¬ (role = RoleChild) := hr
  refine ⟨by simp [handleApi, hm, hr2, hp], ?_, ?_⟩
  · simp only [handleApi, hm, hr2]
    rcases hres : handleApiPostAccount w account sub r db with ⟨e, d⟩
    cases e <;> simp
  · simp only [handleApi, hm, hr2]
    rcases hres : handleApiPostAccount w account sub r db with ⟨e, d⟩
    cases e <;> simp

theorem post_gate_refuses_only_child_witness :
    handleApi calmWorld 42 "mallory" postWithdraw "" db42 =
      handleApi calmWorld 42 "mallory" postWithdraw "parent" db42 ∧
    (handleApi calmWorld 42 "mallory" postWithdraw "" db42).2 =
      (handleApiPostAccount calmWorld 42 "mallory" postWithdraw db42).2 ∧
    (handleApi calmWorld 42 "mallory" postWithdraw "" db42).1 =
      Response.ofStatus
        (if (handleApiPostAccount calmWorld 42 "mallory" postWithdraw db42).1 = none then 200
         else 500) :=
  post_gate_refuses_only_child calmWorld 42 "mallory" postWithdraw "" db42 rfl (by decide)

/-- C8, as stated, fails: a parent POST whose body does not decode is answered
500, not 400. -/
theorem undecodable_body_gets_500 :
    calmWorld.unmarshalTx "amount: lots" = none ∧
    handleApi calmWorld 42 "alice" postGarbage "parent" db42 = (Response.ofStatus 500, db42) := by
  decide

/-- C8 (amended): `handleApi` never answers 400, whatever the method, role,
body and failures. For every POST from a role other than "child": when the
body cannot be read or does not decode into `apiRequestTx`, the answer is 500
and the database is exactly as before, call record included (the failure
precedes every storage call and no transaction is begun); when a storage call
fails (begin, prepare, execute, commit) the answer is 500 as well and the store
is unchanged; and the status is 500 exactly when the body failed or the store
failed (a failing call, or the INSERT refused for want of the account row
under a foreign key), and 200 otherwise. -/
theorem bad_body_is_server_error (w : World) (account : Int) (sub : String) (r : Request)
    (role : String) (db : DB) :
    (handleApi w account sub r role db).1.status ≠ 400 ∧
    (r.method = "POST" → role ≠ "child" →
      ((∀ b : String, r.body = some b → w.unmarshalTx b = none) →
        handleApi w account sub r role db = (Response.ofStatus 500, db)) ∧
      ((w.failBegin = true ∨ w.failPrepareBalance = true ∨ w.failPrepareTx = true ∨
          w.failExecBalance = true ∨ w.failExecTx = true ∨ w.failCommit = true) →
        (handleApi w account sub r role db).1 = Response.ofStatus 500 ∧
        (handleApi w account sub r role db).2.store = db.store) ∧
      ((handleApi w account sub r role db).1.status = 500 ↔
        ((∀ b : String, r.body = some b → w.unmarshalTx b = none) ∨
          w.failBegin = true ∨ w.failPrepareBalance = true ∨ w.failPrepareTx = true ∨
          w.failExecBalance = true ∨ w.failExecTx = true ∨ w.failCommit = true ∨
          (w.actFk = true ∧ balanceOf db.store account = none))) ∧
      ((handleApi w account sub r role db).1.status = 200 ∨
        (handleApi w account sub r role db).1.status = 500)) := by
  constructor
  · rcases handleApi_status w account sub r role db with h | h | h
    all_goals rw [h]
    all_goals decide
  · intro hm hr
    have hr2 : ¬ (role = RoleChild) := hr
    have hpost := handleApi_post w account sub r role db hm hr2
    refine ⟨?_, ?_, ?_, ?_⟩
    · intro hbody
      cases hb : r.body with
      | none => simp [handleApi, hm, hr2, handleApiPostAccount, hb]
      | some b => simp [handleApi, hm, hr2, handleApiPostAccount, hb, hbody b hb]
    · intro hfail
      have herr : (handleApiPostAccount w account sub r db).1 ≠ none :=
        post_error_of_failure w account sub r db (Or.inr hfail)
      rw [hpost]
      exact ⟨by simp [herr], post_error_store w account sub r db herr⟩
    · rw [hpost]
      constructor
      · intro hst
        have herr : (handleApiPostAccount w account sub r db).1 ≠ none := by
          intro e
          rw [e] at hst
          simp [Response.ofStatus] at hst
        exact post_failure_of_error w account sub r db herr
      · intro hcond
        have herr : (handleApiPostAccount w account sub r db).1 ≠ none := by
          rcases hcond with h | h | h | h | h | h | h | h
          · exact post_error_of_failure w account sub r db (Or.inl h)
          · exact post_error_of_failure w account sub r db (Or.inr (Or.inl h))
          · exact post_error_of_failure w account sub r db (Or.inr (Or.inr (Or.inl h)))
          · exact post_error_of_failure w account sub r db
              (Or.inr (Or.inr (Or.inr (Or.inl h))))
          · exact post_error_of_failure w account sub r db
              (Or.inr (Or.inr (Or.inr (Or.inr (Or.inl h)))))
          · exact post_error_of_failure w account sub r db
              (Or.inr (Or.inr (Or.inr (Or.inr (Or.inr (Or.inl h))))))
          · exact post_error_of_failure w account sub r db
              (Or.inr (Or.inr (Or.inr (Or.inr (Or.inr (Or.inr h))))))
          · exact (post_unknown_account_with_fk w account sub r db h.1 h.2).1
        simp [herr, Response.ofStatus]
    · rw [hpost]
      by_cases he : (handleApiPostAccount w account sub r db).1 = none
      · left
        simp [he, Response.ofStatus]
      · right
        simp [he, Response.ofStatus]

/-- Account 42 with balance 100. An undecodable body is answered 500 with the
database untouched; a body that decodes with a failing INSERT is answered 500
with the store unchanged; with nothing failing the status is not 500; and none
of the answers is 400. -/
theorem bad_body_is_server_error_witness :
    (handleApi calmWorld 42 "alice" postGarbage "parent" db42).1.status ≠ 400 ∧
    handleApi calmWorld 42 "alice" postGarbage "parent" db42 = (Response.ofStatus 500, db42) ∧
    ((handleApi insertFailsWorld 42 "alice" postWithdraw "parent" db42).1 =
        Response.ofStatus 500 ∧
      (handleApi insertFailsWorld 42 "alice" postWithdraw "parent" db42).2.store =
        db42.store) ∧
    (handleApi calmWorld 42 "alice" postWithdraw "parent" db42).1.status ≠ 500 ∧
    (handleApi calmWorld 42 "alice" postWithdraw "parent" db42).1.status = 200 :=
  ⟨(bad_body_is_server_error calmWorld 42 "alice" postGarbage "parent" db42).1,
   ((bad_body_is_server_error calmWorld 42 "alice" postGarbage "parent" db42).2 rfl
      (by decide)).1
      (by
        intro b hb
        have hb2 : b = "amount: lots" := by
          have : some "amount: lots" = some b := hb
          exact (Option.some.inj this).symm
        rw [hb2]
        decide),
   ((bad_body_is_server_error insertFailsWorld 42 "alice" postWithdraw "parent" db42).2 rfl
      (by decide)).2.1 (Or.inr (Or.inr (Or.inr (Or.inr (Or.inl rfl))))),
   fun hst =>
     absurd
       ((((bad_body_is_server_error calmWorld 42 "alice" postWithdraw "parent" db42).2 rfl
          (by decide)).2.2.1).mp hst)
       (by
         intro hcond
         rcases hcond with h | h | h | h | h | h | h | h
         · exact absurd (h bodyWithdraw rfl) (by decide)
         · exact absurd h (by decide)
         · exact absurd h (by decide)
         · exact absurd h (by decide)
         · exact absurd h (by decide)
         · exact absurd h (by decide)
         · exact absurd h (by decide)
         · exact absurd h.1 (by decide)),
   by decide⟩

/-! ## C4: tokens -/

/-- C4, as stated, fails, in two ways. A token that expired at Unix second 1000,
presented at Unix second 1700000000, signed with the configured key and
carrying a payload that decodes, is served: the post is carried out with status
200 and the balance of account 42 goes from 100 to 70. And a CORS preflight
that carries a token signed with another key is answered 204, not 401. -/
theorem expired_token_is_served :
    ((calmWorld.token "stale.parent").payload = some staleParentClaims ∧
      outsideValidity staleParentClaims (unixSeconds calmWorld.now) = true ∧
      (authJWT calmWorld (handleApi calmWorld) postWithdraw db42).1.status = 200 ∧
      balanceOf (authJWT calmWorld (handleApi calmWorld) postWithdraw db42).2.store 42 =
        some 70) ∧
    ((calmWorld.token "forged").signer ≠ jwtPublicKey ∧
      (authJWT calmWorld (handleApi calmWorld) preflightForged db42).1.status = 204) := by
  decide

/-- C4 (amended): for every request that is not a CORS preflight and whose path
yields an account number, if the bearer token (when the header has one) is
signed by a key other than the configured public key, or carries a payload that
does not decode into the claim shape, or is not a well-formed RS256 token,
then `authJWT` answers 401 and returns the database untouched whatever the
wrapped handler is: the handler is not invoked. The answer is the same in all
these cases. -/
theorem bad_token_is_unauthorized (w : World)
    (handler : Int → String → Request → String → DB → Response × DB) (r : Request) (db : DB)
    (account : Int) (hm : r.method ≠ "OPTIONS") (ha : getAccount r = some account)
    (hbad : ∀ raw : List Char, tokenRx r.authorization.toList = some raw →
      (w.token (String.mk raw)).signer ≠ jwtPublicKey ∨
      (w.token (String.mk raw)).payload = none ∨
      (w.token (String.mk raw)).wellFormed = false ∨
      (w.token (String.mk raw)).alg ≠ "RS256") :
    authJWT w handler r db = (Response.ofStatus 401, db) := by
  have hpre : handleCorsPreflight r = none := by simp [handleCorsPreflight, hm]
  unfold authJWT
  simp only [hpre, ha]
  cases ht : tokenRx r.authorization.toList with
  | none => rfl
  | some raw =>
    simp only []
    cases hp : jwtParse (w.token (String.mk raw)) with
    | none => rfl
    | some token =>
      simp only []
      have hparse := hp
      unfold jwtParse at hparse
      split_ifs at hparse with hok
      have htok : w.token (String.mk raw) = token := Option.some.inj hparse
      rcases hbad raw ht with h1 | h2 | h3 | h4
      · exact absurd hok.2.2 h1
      · rw [htok] at h2
        simp [h2]
      · rw [hok.1] at h3
        exact absurd h3 (by decide)
      · exact absurd hok.2.1 h4

/-- A token signed with another key and a token with an undecodable payload get
the same answer, and a handler that would wipe the store is not run. -/
theorem bad_token_is_unauthorized_witness :
    authJWT calmWorld wipeHandler postForged db42 = (Response.ofStatus 401, db42) ∧
    authJWT calmWorld wipeHandler postGarbled db42 = (Response.ofStatus 401, db42) :=
  ⟨bad_token_is_unauthorized calmWorld wipeHandler postForged db42 42 (by decide) (by decide)
      (by
        intro raw hraw
        have hr2 : raw = "forged".toList := by
          have h0 : tokenRx postForged.authorization.toList = some "forged".toList := by decide
          rw [h0] at hraw
          exact (Option.some.inj hraw).symm
        rw [hr2]
        exact Or.inl (by decide)),
   bad_token_is_unauthorized calmWorld wipeHandler postGarbled db42 42 (by decide) (by decide)
      (by
        intro raw hraw
        have hr2 : raw = "garbled".toList := by
          have h0 : tokenRx postGarbled.authorization.toList = some "garbled".toList := by decide
          rw [h0] at hraw
          exact (Option.some.inj hraw).symm
        rw [hr2]
        exact Or.inr (Or.inl (by decide)))⟩

/-! ## Decimal text and `Atoi` -/

theorem digitsValue_nil (acc : Nat) : digitsValue acc [] = acc := rfl

theorem digitsValue_cons (acc : Nat) (c : Char) (cs : List Char) :
    digitsValue acc (c :: cs) = digitsValue (10 * acc + digitVal c) cs := rfl

theorem digitsValue_eq (s : List Char) (acc : Nat) :
    digitsValue acc s = acc * 10 ^ s.length + Nat.ofDigits 10 (s.reverse.map digitVal) := by
  induction s generalizing acc with
  | nil =>
    rw [digitsValue_nil]
    simp
  | cons c cs ih =>
    rw [digitsValue_cons, ih]
    simp only [List.reverse_cons, List.map_append, List.map_cons, List.map_nil,
      Nat.ofDigits_append, Nat.ofDigits_singleton, List.length_map, List.length_reverse,
      List.length_cons]
    ring

theorem isDigit_not_sign (c : Char) (h : isDigit c = true) : c ≠ '-' ∧ c ≠ '+' := by
  constructor
  · intro e
    subst e
    exact absurd h (by decide)
  · intro e
    subst e
    exact absurd h (by decide)

theorem all_isDigit_of (s : List Char) (h : ∀ c ∈ s, isDigit c = true) :
    s.all isDigit = true := by
  simpa [List.all_eq_true] using h

theorem parseDigits_of_decimal (s : List Char) (n : Nat) (h : DecimalText s n) :
    parseDigits s = some n := by
  obtain ⟨hne, hd, hv⟩ := h
  have hall := all_isDigit_of s hd
  unfold parseDigits
  rw [if_pos ⟨hne, hall⟩, digitsValue_eq, hv]
  simp

theorem splitSign_of_decimal (s : List Char) (n : Nat) (h : DecimalText s n) :
    splitSign s = (false, s) := by
  obtain ⟨hne, hd, _⟩ := h
  cases s with
  | nil => exact absurd rfl hne
  | cons c cs =>
    have hc := isDigit_not_sign c (hd c (List.mem_cons_self c cs))
    simp [splitSign, hc.1, hc.2]

theorem Atoi_of_decimal (s : List Char) (n : Nat) (h : DecimalText s n)
    (hmax : (n : Int) ≤ maxInt) : Atoi s = ((n : Int), false) := by
  unfold Atoi
  rw [splitSign_of_decimal s n h]
  simp only [parseDigits_of_decimal s n h]
  simp [hmax]

theorem takeWhile_of_decimal (s : List Char) (n : Nat) (h : DecimalText s n) :
    s.takeWhile isDigit = s := by
  rw [List.takeWhile_eq_self_iff]
  exact h.2.1

theorem Atoi_error_of_not_integer (s : List Char) (h : isIntegerText s = false) :
    Atoi s = (0, true) := by
  have hp : parseDigits (splitSign s).2 = none := by
    cases s with
    | nil => simp [splitSign, parseDigits]
    | cons c cs =>
      by_cases h1 : c = '-'
      · simp [isIntegerText, h1] at h
        simp only [splitSign, h1, if_true, parseDigits]
        rw [if_neg]
        intro hh
        have := h (by simpa using hh.1)
        rcases this with ⟨x, hx, hx2⟩
        have h3 := hh.2
        rw [List.all_eq_true] at h3
        rw [h3 x hx] at hx2
        exact absurd hx2 (by decide)
      · by_cases h2 : c = '+'
        · simp [isIntegerText, h2] at h
          simp only [splitSign, h2, if_true, parseDigits]
          rw [if_neg (by decide : ¬ ('+' = '-')), if_neg]
          intro hh
          have := h (by simpa using hh.1)
          rcases this with ⟨x, hx, hx2⟩
          have h3 := hh.2
          rw [List.all_eq_true] at h3
          rw [h3 x hx] at hx2
          exact absurd hx2 (by decide)
        · simp only [isIntegerText, h1, h2, or_self, if_false] at h
          simp only [splitSign, h1, h2, if_false, parseDigits]
          rw [if_neg]
          intro hh
          rw [hh.2] at h
          exact absurd h (by decide)
  unfold Atoi
  rw [hp]

theorem Atoi_of_negative (s : List Char) (h : isNegativeText s = true) :
    (Atoi s).2 = true ∨ (Atoi s).1 ≤ 0 := by
  cases s with
  | nil => simp [isNegativeText] at h
  | cons c cs =>
    simp only [isNegativeText, Bool.and_eq_true, decide_eq_true_eq] at h
    obtain ⟨⟨hc, _⟩, _⟩ := h
    unfold Atoi
    simp only [splitSign, hc, if_true]
    cases parseDigits cs with
    | none => left; rfl
    | some n =>
      simp only []
      split_ifs with hn
      · right
        show -(n : Int) ≤ 0
        omega
      · left
        rfl

theorem queryGet_absent (r : Request) (key : String) (h : ∀ kv ∈ r.query, kv.1 ≠ key) :
    r.queryGet key = "" := by
  unfold Request.queryGet
  have : r.query.find? (fun kv => decide (kv.1 = key)) = none := by
    rw [List.find?_eq_none]
    intro kv hkv
    simpa using h kv hkv
  rw [this]

theorem queryPage_zero (r : Request)
    (h : (∀ kv ∈ r.query, kv.1 ≠ "p") ∨ r.queryGet "p" = "" ∨
      isIntegerText (r.queryGet "p").toList = false ∨
      isNegativeText (r.queryGet "p").toList = true) : queryPage r = 0 := by
  unfold queryPage
  rcases h with h | h | h | h
  · simp [queryGet_absent r "p" h]
  · simp [h]
  · rw [Atoi_error_of_not_integer _ h]
    simp
  · split_ifs with h1 h2
    · rcases Atoi_of_negative _ h with h3 | h3
      · rw [h2.1] at h3
        exact absurd h3 (by decide)
      · omega
    · rfl
    · rfl

theorem queryPage_decimal (r : Request) (n : Nat) (h : DecimalText (r.queryGet "p").toList n)
    (hmax : (n : Int) ≤ maxInt) : queryPage r = (n : Int) := by
  unfold queryPage
  have hne : r.queryGet "p" ≠ "" := by
    intro e
    rw [e] at h
    exact h.1 rfl
  rw [Atoi_of_decimal _ n h hmax]
  simp [hne]

theorem digitChar_facts : ∀ k : Nat, k < 10 →
    isDigit (Nat.digitChar k) = true ∧ digitVal (Nat.digitChar k) = k := by
  decide

theorem toDigitsCore_decimal (fuel : Nat) :
    ∀ (n : Nat) (ds : List Char), n < fuel →
      ∃ pre : List Char, Nat.toDigitsCore 10 fuel n ds = pre ++ ds ∧ DecimalText pre n := by
  induction fuel with
  | zero => intro n ds h; omega
  | succ fuel ih =>
    intro n ds h
    have hd := digitChar_facts (n % 10) (Nat.mod_lt n (by decide))
    by_cases h0 : n / 10 = 0
    · refine ⟨[Nat.digitChar (n % 10)], by simp [Nat.toDigitsCore, h0], by simp, ?_, ?_⟩
      · intro c hc
        rw [List.mem_singleton] at hc
        rw [hc]
        exact hd.1
      · simp only [List.reverse_singleton, List.map_cons, List.map_nil, Nat.ofDigits_singleton,
          hd.2]
        omega
    · obtain ⟨pre, hpre, hne, hdig, hval⟩ :=
        ih (n / 10) (Nat.digitChar (n % 10) :: ds) (by omega)
      refine ⟨pre ++ [Nat.digitChar (n % 10)], ?_, by simp, ?_, ?_⟩
      · simp [Nat.toDigitsCore, h0, hpre]
      · intro c hc
        rw [List.mem_append, List.mem_singleton] at hc
        rcases hc with hc | hc
        · exact hdig c hc
        · rw [hc]
          exact hd.1
      · simp only [List.reverse_append, List.reverse_singleton, List.singleton_append,
          List.map_cons, Nat.ofDigits_cons, hd.2, hval]
        omega

/-- The usual decimal rendering of a natural number is its decimal text. -/
theorem decimalText_toString (n : Nat) : DecimalText (toString n).toList n := by
  obtain ⟨pre, hpre, h⟩ := toDigitsCore_decimal (n + 1) n [] (by omega)
  have hs : (toString n).toList = pre := by
    show (Nat.repr n).toList = pre
    simp only [Nat.repr, Nat.toDigits, hpre, List.append_nil]
    rfl
  rw [hs]
  exact h

/-! ## C7: page clamping -/

/-- C7: when the query parameter `p` is absent, empty, not the text of an
integer, or the text of a negative integer, `handleApiGetAccount` loads page 0,
and its result is the one for any request with `p=0` on the same database;
when `p` is the decimal text of a non-negative machine integer `n` (any run of
digits with value `n`, in particular the usual rendering of `n`), it loads
page `n`. -/
theorem page_clamping (w : World) (account : Int) (r : Request) (db : DB) :
    (((∀ kv ∈ r.query, kv.1 ≠ "p") ∨ r.queryGet "p" = "" ∨
        isIntegerText (r.queryGet "p").toList = false ∨
        isNegativeText (r.queryGet "p").toList = true) →
      queryPage r = 0 ∧
      handleApiGetAccount w account r db = writeAccount (loadAccountData w account 0 db) ∧
      ∀ r0 : Request, r0.queryGet "p" = "0" →
        handleApiGetAccount w account r db = handleApiGetAccount w account r0 db) ∧
    (∀ n : Nat, DecimalText (r.queryGet "p").toList n → (n : Int) ≤ maxInt →
      queryPage r = (n : Int) ∧
      handleApiGetAccount w account r db =
        writeAccount (loadAccountData w account (n : Int) db)) ∧
    (∀ n : Nat, r.queryGet "p" = toString n → (n : Int) ≤ maxInt →
      queryPage r = (n : Int) ∧
      handleApiGetAccount w account r db =
        writeAccount (loadAccountData w account (n : Int) db)) := by
  have hdec : ∀ n : Nat, DecimalText (r.queryGet "p").toList n → (n : Int) ≤ maxInt →
      queryPage r = (n : Int) ∧
      handleApiGetAccount w account r db =
        writeAccount (loadAccountData w account (n : Int) db) := by
    intro n hn hmax
    have hq := queryPage_decimal r n hn hmax
    exact ⟨hq, by rw [handleApiGetAccount, hq]⟩
  refine ⟨?_, hdec, ?_⟩
  · intro h
    have hz := queryPage_zero r h
    refine ⟨hz, by rw [handleApiGetAccount, hz], ?_⟩
    intro r0 h0
    have hz0 : queryPage r0 = ((0 : Nat) : Int) :=
      queryPage_decimal r0 0 (by rw [h0]; decide) (by decide)
    rw [handleApiGetAccount, handleApiGetAccount, hz, hz0]
    rfl
  · intro n hn hmax
    exact hdec n (by rw [hn]; exact decimalText_toString n) hmax

/-- With `p=-3` and with `p=abc` page 0 is loaded; with `p=7` and with `p=007`
page 7. -/
theorem page_clamping_witness :
    (queryPage (getP "-3") = 0 ∧
      handleApiGetAccount calmWorld 42 (getP "-3") db42 =
        writeAccount (loadAccountData calmWorld 42 0 db42) ∧
      ∀ r0 : Request, r0.queryGet "p" = "0" →
        handleApiGetAccount calmWorld 42 (getP "-3") db42 =
          handleApiGetAccount calmWorld 42 r0 db42) ∧
    queryPage (getP "abc") = 0 ∧
    (queryPage (getP "007") = ((7 : Nat) : Int) ∧
      handleApiGetAccount calmWorld 42 (getP "007") db42 =
        writeAccount (loadAccountData calmWorld 42 ((7 : Nat) : Int) db42)) ∧
    (queryPage (getP "7") = ((7 : Nat) : Int) ∧
      handleApiGetAccount calmWorld 42 (getP "7") db42 =
        writeAccount (loadAccountData calmWorld 42 ((7 : Nat) : Int) db42)) :=
  ⟨(page_clamping calmWorld 42 (getP "-3") db42).1 (Or.inr (Or.inr (Or.inr (by decide)))),
   ((page_clamping calmWorld 42 (getP "abc") db42).1 (Or.inr (Or.inr (Or.inl (by decide))))).1,
   (page_clamping calmWorld 42 (getP "007") db42).2.1 7 (by decide) (by decide),
   (page_clamping calmWorld 42 (getP "7") db42).2.2 7 (by decide) (by decide)⟩

/-! ## C9: the account in the path -/

theorem rxPath_api (seg : List Char) :
    rxPath (apiLead ++ seg) =
      if seg.takeWhile isDigit = [] then none else some (seg.takeWhile isDigit) := by
  simp [rxPath, apiLead]

theorem takeWhile_of_no_digit (seg : List Char) (h : startsWithDigit seg = false) :
    seg.takeWhile isDigit = [] := by
  cases seg with
  | nil => rfl
  | cons c cs =>
    have hc : isDigit c = false := h
    simp [List.takeWhile, hc]

theorem getAccount_none (r : Request) (seg : List Char) (hp : r.path.toList = apiLead ++ seg)
    (h : startsWithDigit seg = false) : getAccount r = none := by
  unfold getAccount
  rw [hp, rxPath_api, takeWhile_of_no_digit seg h]
  simp

theorem getAccount_decimal (r : Request) (seg : List Char) (n : Nat)
    (hp : r.path.toList = apiLead ++ seg) (h : DecimalText seg n) (hmax : (n : Int) ≤ maxInt) :
    getAccount r = some (n : Int) := by
  unfold getAccount
  rw [hp, rxPath_api, takeWhile_of_decimal seg n h, if_neg h.1]
  simp only []
  rw [Atoi_of_decimal seg n h hmax]

/-- C9, as stated, fails, in two ways. For the path `/api/42abc` `getAccount`
returns 42 with no error, and `authJWT` goes on to serve account 42 (status 200
with its balance) instead of answering 400. And for a CORS preflight on the
path `/api/abc`, which `getAccount` refuses, `authJWT` answers 204, not 400. -/
theorem digits_then_text_is_accepted :
    (getAccount (getPath "/api/42abc") = some 42 ∧
      (authJWT calmWorld (handleApi calmWorld) (getPath "/api/42abc") db42).1.status = 200 ∧
      (authJWT calmWorld (handleApi calmWorld) (getPath "/api/42abc") db42).1.body =
        some { Balance := 100, Transactions := [] }) ∧
    (getAccount preflightNoAccount = none ∧
      (authJWT calmWorld (handleApi calmWorld) preflightNoAccount db42).1.status = 204) := by
  decide

/-- C9 (amended): for every request path `/api/{account}` whose segment does
not begin with a decimal digit (empty, "abc", "-1"), `getAccount` returns an
error, and for a request that is not a CORS preflight `authJWT` answers 400
leaving the database untouched whatever the wrapped handler is; for every
segment that is the decimal text of a non-negative machine integer `n` (any
run of digits with value `n`, in particular the usual rendering of `n`),
`getAccount` returns `n` with no error. -/
theorem account_path_validation (w : World)
    (handler : Int → String → Request → String → DB → Response × DB) (r : Request) (db : DB) :
    (∀ seg : List Char, r.path.toList = apiLead ++ seg → startsWithDigit seg = false →
      getAccount r = none ∧
      (r.method ≠ "OPTIONS" → authJWT w handler r db = (Response.ofStatus 400, db))) ∧
    (∀ (seg : List Char) (n : Nat), r.path.toList = apiLead ++ seg → DecimalText seg n →
      (n : Int) ≤ maxInt → getAccount r = some (n : Int)) ∧
    (∀ n : Nat, r.path = "/api/" ++ toString n → (n : Int) ≤ maxInt →
      getAccount r = some (n : Int)) := by
  refine ⟨?_, ?_, ?_⟩
  · intro seg hp h
    have hg := getAccount_none r seg hp h
    refine ⟨hg, ?_⟩
    intro hm
    have hpre : handleCorsPreflight r = none := by simp [handleCorsPreflight, hm]
    unfold authJWT
    simp only [hpre, hg]
  · intro seg n hp hn hmax
    exact getAccount_decimal r seg n hp hn hmax
  · intro n hp hmax
    have hl : r.path.toList = apiLead ++ (toString n).toList := by
      rw [hp]
      simp [String.toList, apiLead]
    exact getAccount_decimal r _ n hl (decimalText_toString n) hmax

/-- The segments "", "abc" and "-1" are refused with 400 and the handler is not
run; the segments "042" and "42" give account 42. -/
theorem account_path_validation_witness :
    (getAccount (getPath "/api/") = none ∧
      ((getPath "/api/").method ≠ "OPTIONS" →
        authJWT calmWorld wipeHandler (getPath "/api/") db42 = (Response.ofStatus 400, db42))) ∧
    (getAccount (getPath "/api/abc") = none ∧
      ((getPath "/api/abc").method ≠ "OPTIONS" →
        authJWT calmWorld wipeHandler (getPath "/api/abc") db42 =
          (Response.ofStatus 400, db42))) ∧
    (getAccount (getPath "/api/-1") = none ∧
      ((getPath "/api/-1").method ≠ "OPTIONS" →
        authJWT calmWorld wipeHandler (getPath "/api/-1") db42 =
          (Response.ofStatus 400, db42))) ∧
    getAccount (getPath "/api/042") = some ((42 : Nat) : Int) ∧
    getAccount (getPath ("/api/" ++ toString 42)) = some ((42 : Nat) : Int) :=
  ⟨(account_path_validation calmWorld wipeHandler (getPath "/api/") db42).1 [] (by decide)
      (by decide),
   (account_path_validation calmWorld wipeHandler (getPath "/api/abc") db42).1 ['a', 'b', 'c']
      (by decide) (by decide),
   (account_path_validation calmWorld wipeHandler (getPath "/api/-1") db42).1 ['-', '1']
      (by decide) (by decide),
   (account_path_validation calmWorld wipeHandler (getPath "/api/042") db42).2.1
      ['0', '4', '2'] 42 (by decide) (by decide) (by decide),
   (account_path_validation calmWorld wipeHandler (getPath ("/api/" ++ toString 42)) db42).2.2
      42 rfl (by decide)⟩

/-! ## C6 and C10: the ledger reader -/

/-- C10: evaluation at the failing input. The newer row of account 42 has a
NULL description, so its scan fails; `loadAccountData` still succeeds and the
list holds an entry for that row, with empty comment and amount 0, ahead of
the entry of the row that decoded. The rows of the page that decode give one
entry only. -/
theorem failed_scan_row_is_kept :
    (rowScan { act := 42, sub := "alice", tstamp := 1700000000000000, amount := some (-30),
               descr := none }).2 = true ∧
    (loadAccountData calmWorld 42 0 db42null).1 =
      Except.ok { Balance := 100,
                  Transactions := [{ Date := 1700000000, Comment := "", Amount := 0 },
                                   { Date := 1600000000, Comment := "gift", Amount := 5 }] } ∧
    ((history db42null.store 42).filter (fun row => !(rowScan row).2)).map scanTx =
      [{ Date := 1600000000, Comment := "gift", Amount := 5 }] := by
  decide

end Bpm
